import Mathlib

/-!
Verification of the `cq` streaming CSV query tool (src/main.rs).

The program reads a delimited byte stream in chunks, splits it into fields
(comma byte 44) and records (carriage-return byte 13, with line-feed byte 10
unconditionally ignored), resolves `-select` / `-where` arguments against the
header record, filters data records by column equality and prints the
projected fields comma-joined, one line per accepted record.

Shallow embedding conventions:
* bytes are `Nat`; Rust `String` values are represented by their UTF-8 byte
  sequences (`Str := List Nat`) — Rust string equality coincides with byte
  sequence equality because UTF-8 encoding is injective;
* `ReaderState.out` models the lines written to standard output (each entry is
  the byte content of one line, without the terminator);
* a failed `unwrap` of `from_utf8` (invalid UTF-8 in a finalized field) is
  modelled by the `panicked` flag: once set, processing freezes, which mirrors
  process abortion with the output produced so far;
* the read loop of `main` is modelled by `runChunks` over a list of chunks,
  stopping at the first empty chunk exactly as `while len > 0` does, followed
  by the final synthetic `handle_value_end` / `handle_line_end` flush;
* command line parsing (`parse_args` with its accept/refund cursor) is
  modelled by structural recursion over the remaining token list.
-/

namespace Cq

/-- Byte strings: the UTF-8 bytes of a Rust `String` or raw field bytes. -/
abbrev Str := List Nat

/-- Incremental UTF-8 validation automaton state: how many continuation bytes
are still required and the allowed range for the next one. -/
structure Utf8State where
  failed : Bool
  need : Nat
  lo : Nat
  hi : Nat
deriving DecidableEq, Repr

/-- One step of strict UTF-8 validation (same acceptance set as Rust
`std::str::from_utf8`): rejects bare continuation bytes, overlong forms,
surrogates and code points above U+10FFFF. -/
def utf8Step (st : Utf8State) (b : Nat) : Utf8State :=
  if st.failed then st
  else if 0 < st.need then
    if st.lo ≤ b ∧ b ≤ st.hi then ⟨false, st.need - 1, 0x80, 0xBF⟩
    else { st with failed := true }
  else if b < 0x80 then st
  else if b < 0xC2 then { st with failed := true }
  else if b < 0xE0 then ⟨false, 1, 0x80, 0xBF⟩
  else if b = 0xE0 then ⟨false, 2, 0xA0, 0xBF⟩
  else if b < 0xED then ⟨false, 2, 0x80, 0xBF⟩
  else if b = 0xED then ⟨false, 2, 0x80, 0x9F⟩
  else if b < 0xF0 then ⟨false, 2, 0x80, 0xBF⟩
  else if b = 0xF0 then ⟨false, 3, 0x90, 0xBF⟩
  else if b < 0xF4 then ⟨false, 3, 0x80, 0xBF⟩
  else if b = 0xF4 then ⟨false, 3, 0x80, 0x8F⟩
  else { st with failed := true }

/-- Whether a byte sequence is valid UTF-8 (models `from_utf8(..).is_ok()`). -/
def utf8Valid (bs : Str) : Bool :=
  let fin := bs.foldl utf8Step ⟨false, 0, 0x80, 0xBF⟩
  !fin.failed && fin.need == 0

/-- A `-where <column> -eq <value>` predicate as parsed from the arguments
(struct `Filter` in the source). -/
structure Filter where
  column : Str
  value : Str
deriving DecidableEq, Repr

/-- A predicate resolved against the header (struct `FilterState`). -/
structure FilterState where
  column_index : Nat
  value : Str
  matched : Bool
deriving DecidableEq, Repr

/-- Parsed command-line arguments (struct `ReaderArgs`); the `Box<dyn Read>`
input is abstracted to the optional `-in` path, the byte stream itself being a
parameter of the run functions. -/
structure ReaderArgs where
  inputPath : Option Str
  columns : List Str
  filters : List Filter
deriving DecidableEq, Repr

/-- The streaming state (struct `ReaderState`), extended with `out` (lines
written to stdout so far) and `panicked` (a failed `unwrap` happened); the
3-byte read buffer `buf` is not state, it is modelled by the chunk lists fed
to `runChunks`. -/
structure ReaderState where
  column_indexes : List Nat
  filters : List FilterState
  in_header : Bool
  column_index : Nat
  current_value : Str
  to_print : List Str
  out : List Str
  panicked : Bool
deriving DecidableEq, Repr

/-- Replace the first element satisfying `p` by `f` of it, leaving the rest
unchanged (models `iter_mut().find(..)` followed by a mutation). -/
def updateFirst (p : α → Bool) (f : α → α) : List α → List α
  | [] => []
  | x :: xs => if p x then f x :: xs else x :: updateFirst p f xs

/-- The initial state built in `main`. -/
def initState : ReaderState :=
  ⟨[], [], true, 0, [], [], [], false⟩

/-- Whether the current field is projected: its index was resolved from the
header, or no `-select` columns were requested (project all). -/
def isProjected (args : ReaderArgs) (s : ReaderState) : Bool :=
  s.column_indexes.contains s.column_index || args.columns.isEmpty

/-- Whether some resolved filter sits at the current field index. -/
def isFiltered (s : ReaderState) : Bool :=
  s.filters.any (fun f => f.column_index == s.column_index)

/-- `handle_value_end`: finalize the pending field.  In the header phase the
field value is decoded (`unwrap` panics on invalid UTF-8) and resolved against
the `-select` names and the `-where` columns; in the data phase the value is
appended to `to_print` when projected and compared against the resolved filter
at this index when one exists — decoding, and hence the panic on invalid
UTF-8, happens only on those two paths. -/
def handle_value_end (args : ReaderArgs) (s : ReaderState) : ReaderState :=
  if s.panicked then s
  else if s.in_header then
    if utf8Valid s.current_value then
      { s with
        column_indexes := s.column_indexes ++
          (if args.columns.contains s.current_value then [s.column_index] else []),
        filters := s.filters ++
          (match args.filters.find? (fun f => f.column == s.current_value) with
            | some f => [⟨s.column_index, f.value, false⟩]
            | none => []),
        column_index := s.column_index + 1,
        current_value := [] }
    else { s with panicked := true }
  else
    if isProjected args s && !utf8Valid s.current_value then
      { s with panicked := true }
    else if isFiltered s && !utf8Valid s.current_value then
      { s with panicked := true }
    else
      { s with
        to_print := s.to_print ++ (if isProjected args s then [s.current_value] else []),
        filters :=
          if isFiltered s then
            updateFirst (fun f => f.column_index == s.column_index)
              (fun f => if s.current_value == f.value then { f with matched := true } else f)
              s.filters
          else s.filters,
        column_index := s.column_index + 1,
        current_value := [] }

/-- `handle_line_end`: leave the header phase, reset the field index and the
pending buffer; if every resolved filter matched and the output list is
non-empty, write the comma-joined output list as one line and clear it — note
that the clearing happens only on that path; finally reset all matched
flags. -/
def handle_line_end (_args : ReaderArgs) (s : ReaderState) : ReaderState :=
  if s.panicked then s
  else if s.filters.all (fun f => f.matched) && !s.to_print.isEmpty then
    { s with
      in_header := false,
      column_index := 0,
      current_value := [],
      out := s.out ++ [List.intercalate [44] s.to_print],
      to_print := [],
      filters := s.filters.map (fun f => { f with matched := false }) }
  else
    { s with
      in_header := false,
      column_index := 0,
      current_value := [],
      filters := s.filters.map (fun f => { f with matched := false }) }

/-- One byte of the read loop in `main`: 10 is dropped, 13 ends the field and
the record, 44 ends the field, anything else is appended to the pending
field. -/
def step (args : ReaderArgs) (s : ReaderState) (b : Nat) : ReaderState :=
  if s.panicked then s
  else if b = 10 then s
  else if b = 13 then handle_line_end args (handle_value_end args s)
  else if b = 44 then handle_value_end args s
  else { s with current_value := s.current_value ++ [b] }

/-- Process a chunk of bytes in order (the `for i in 0 .. len` loop). -/
def processBytes (args : ReaderArgs) (s : ReaderState) (bs : List Nat) : ReaderState :=
  bs.foldl (step args) s

/-- The synthetic end-of-stream flush after the read loop. -/
def flush (args : ReaderArgs) (s : ReaderState) : ReaderState :=
  handle_line_end args (handle_value_end args s)

/-- Run the whole pipeline on the input delivered as a single chunk. -/
def run (args : ReaderArgs) (bs : List Nat) : ReaderState :=
  flush args (processBytes args initState bs)

/-- The read loop of `main` over a sequence of chunks: chunks are consumed in
order until the first empty one (`while len > 0`), then the final flush
runs. -/
def runChunks (args : ReaderArgs) : ReaderState → List (List Nat) → ReaderState
  | s, [] => flush args s
  | s, c :: rest =>
    if c.isEmpty then flush args s else runChunks args (processBytes args s c) rest

/-- Tokenizer events of the spec: end of a field carrying its bytes, and end
of a record. -/
inductive FieldEvent where
  | fieldEnd (value : Str)
  | recordEnd
deriving DecidableEq, Repr

/-- One byte of the tokenizer in isolation: the pending buffer plus the events
emitted so far. -/
def tokStep (st : Str × List FieldEvent) (b : Nat) : Str × List FieldEvent :=
  if b = 10 then st
  else if b = 13 then ([], st.2 ++ [.fieldEnd st.1, .recordEnd])
  else if b = 44 then ([], st.2 ++ [.fieldEnd st.1])
  else (st.1 ++ [b], st.2)

/-- End-of-stream flush of the tokenizer: a final field end and record end. -/
def tokFlush (st : Str × List FieldEvent) : List FieldEvent :=
  st.2 ++ [.fieldEnd st.1, .recordEnd]

/-- Feed one chunk to the tokenizer. -/
def tokenizeFrom (st : Str × List FieldEvent) (bs : List Nat) : Str × List FieldEvent :=
  bs.foldl tokStep st

/-- Tokenize a whole input delivered as one chunk. -/
def tokenize (bs : List Nat) : List FieldEvent :=
  tokFlush (tokenizeFrom ([], []) bs)

/-- Tokenize chunked input, stopping at the first empty chunk. -/
def tokenizeChunks : Str × List FieldEvent → List (List Nat) → List FieldEvent
  | st, [] => tokFlush st
  | st, c :: rest =>
    if c.isEmpty then tokFlush st else tokenizeChunks (tokenizeFrom st c) rest

/-- Arguments with no `-select` columns and no `-where` filters. -/
def noArgs : ReaderArgs := ⟨none, [], []⟩

/-- Arguments for `-where a -eq z` with no `-select` (project all columns). -/
def filterAZ : ReaderArgs := ⟨none, [], [⟨[97], [122]⟩]⟩

/-- Arguments for `-where m -eq x`: the column `m` is absent from the headers
used in the concrete runs below. -/
def unresolvedFilterArgs : ReaderArgs := ⟨none, [], [⟨[109], [120]⟩]⟩

/-- Arguments for `-select a` with no filters. -/
def selectAArgs : ReaderArgs := ⟨none, [[97]], []⟩

/-- Arguments for `-where a -eq 1` with no `-select`. -/
def filterA1 : ReaderArgs := ⟨none, [], [⟨[97], [49]⟩]⟩

/-- UTF-8 bytes of `name`. -/
def nameStr : Str := [110, 97, 109, 101]

/-- UTF-8 bytes of `city`. -/
def cityStr : Str := [99, 105, 116, 121]

/-- UTF-8 bytes of `Ada`. -/
def adaStr : Str := [65, 100, 97]

/-- UTF-8 bytes of `London`. -/
def londonStr : Str := [76, 111, 110, 100, 111, 110]

/-- UTF-8 bytes of `Bob`. -/
def bobStr : Str := [66, 111, 98]

/-- UTF-8 bytes of `Paris`. -/
def parisStr : Str := [80, 97, 114, 105, 115]

/-- Arguments of the spec example: `-select city -where name -eq Ada`. -/
def args9 : ReaderArgs := ⟨none, [cityStr], [⟨nameStr, adaStr⟩]⟩

/-- The byte stream of the spec example, exactly as written there: the header
line is terminated by a bare line-feed byte. -/
def input9 : List Nat :=
  nameStr ++ [44] ++ cityStr ++ [10] ++ adaStr ++ [44] ++ londonStr ++ [13, 10] ++
    bobStr ++ [44] ++ parisStr ++ [13, 10]

/-- The byte stream of the spec example with the header line terminated by
carriage return and line feed like the data lines. -/
def input9fixed : List Nat :=
  nameStr ++ [44] ++ cityStr ++ [13, 10] ++ adaStr ++ [44] ++ londonStr ++ [13, 10] ++
    bobStr ++ [44] ++ parisStr ++ [13, 10]

/-! ### Basic lemmas about the step functions -/

theorem hve_panicked (args : ReaderArgs) {s : ReaderState} (hp : s.panicked = true) :
    handle_value_end args s = s := by
  simp [handle_value_end, hp]

theorem hle_panicked (args : ReaderArgs) {s : ReaderState} (hp : s.panicked = true) :
    handle_line_end args s = s := by
  simp [handle_line_end, hp]

theorem processBytes_append (args : ReaderArgs) (s : ReaderState) (a b : List Nat) :
    processBytes args s (a ++ b) = processBytes args (processBytes args s a) b := by
  simp [processBytes, List.foldl_append]

theorem flush_eq_step13 (args : ReaderArgs) (s : ReaderState) :
    flush args s = step args s 13 := by
  by_cases hp : s.panicked = true
  · show handle_line_end args (handle_value_end args s) = step args s 13
    rw [hve_panicked args hp, hle_panicked args hp, step, if_pos hp]
  · rw [step, if_neg hp]
    norm_num
    rfl

theorem runChunks_join (args : ReaderArgs) :
    ∀ (chunks : List (List Nat)) (s : ReaderState), (∀ c ∈ chunks, c ≠ []) →
      runChunks args s chunks = flush args (processBytes args s chunks.flatten) := by
  intro chunks
  induction chunks with
  | nil => intro s _; simp [runChunks, processBytes]
  | cons c rest ih =>
    intro s h
    have hc : ¬ c.isEmpty = true := by
      simpa [List.isEmpty_eq_true] using h c (List.mem_cons_self c rest)
    rw [runChunks, if_neg hc, ih _ (fun d hd => h d (List.mem_cons_of_mem c hd)),
      List.flatten_cons, processBytes_append]

theorem tokenizeFrom_append (st : Str × List FieldEvent) (a b : List Nat) :
    tokenizeFrom st (a ++ b) = tokenizeFrom (tokenizeFrom st a) b := by
  simp [tokenizeFrom, List.foldl_append]

theorem tokenizeChunks_join :
    ∀ (chunks : List (List Nat)) (st : Str × List FieldEvent), (∀ c ∈ chunks, c ≠ []) →
      tokenizeChunks st chunks = tokFlush (tokenizeFrom st chunks.flatten) := by
  intro chunks
  induction chunks with
  | nil => intro st _; simp [tokenizeChunks, tokenizeFrom]
  | cons c rest ih =>
    intro st h
    have hc : ¬ c.isEmpty = true := by
      simpa [List.isEmpty_eq_true] using h c (List.mem_cons_self c rest)
    rw [tokenizeChunks, if_neg hc, ih _ (fun d hd => h d (List.mem_cons_of_mem c hd)),
      List.flatten_cons, tokenizeFrom_append]

/-! ### Claim theorems -/

/-- C1: feeding the input to the per-byte loop in chunks of any sizes
(every read chunk being non-empty, an empty read meaning end of stream)
produces exactly the same tokenizer event sequence and the same final state —
in particular the same output lines — as processing the whole input as one
chunk; the pending field buffer and the field index carried in the state are
all that crosses a chunk boundary. -/
theorem C1_chunk_invariance (args : ReaderArgs) (chunks : List (List Nat))
    (h : ∀ c ∈ chunks, c ≠ []) :
    runChunks args initState chunks = run args chunks.flatten ∧
    tokenizeChunks ([], []) chunks = tokenize chunks.flatten := by
  exact ⟨runChunks_join args chunks initState h, tokenizeChunks_join chunks ([], []) h⟩

/-- C1 witness: a concrete chunking, splitting a record delimiter away from
its field, gives the same result as the unsplit input. -/
theorem C1_chunk_invariance_witness :
    runChunks noArgs initState [[97], [13, 98]] = run noArgs [97, 13, 98] ∧
    tokenizeChunks ([], []) [[97], [13, 98]] = tokenize [97, 13, 98] :=
  C1_chunk_invariance noArgs [[97], [13, 98]] (by decide)

/-- C2 (code bug): with `-where a -eq z` and no `-select`, on input
`a\rb\rz\r` the rejected record `b` is not cleared from the output list
(`handle_line_end` clears `to_print` only inside the accepted-and-non-empty
branch), so its projected value leaks into the accepted record and the
program prints the single line `b,z` instead of `z`. -/
theorem C2_rejected_record_leaks :
    (run filterAZ [97, 13, 98, 13, 122, 13]).out = [[98, 44, 122]] := by decide

/-- C6: the synthetic `handle_value_end` plus `handle_line_end` at stream
exhaustion is exactly one record-delimiter step, so running on any input
equals the plain per-byte processing of the input with a record delimiter
appended — the last record is evaluated and emitted like any other; concretely
`a\r1` with no arguments still prints the line `1`. -/
theorem C6_final_flush :
    (∀ (args : ReaderArgs) (bs : List Nat),
        run args bs = processBytes args initState (bs ++ [13])) ∧
    (run noArgs [97, 13, 49]).out = [[49]] := by
  refine ⟨fun args bs => ?_, by decide⟩
  rw [processBytes_append]
  show flush args (processBytes args initState bs) =
    List.foldl (step args) (processBytes args initState bs) [13]
  rw [List.foldl_cons, List.foldl_nil]
  exact flush_eq_step13 args _

/-- C9 counterexample: the spec example byte stream
`name,city\nAda,London\r\nBob,Paris\r\n` with `-select city -where name -eq
Ada` produces zero output lines, not `London`: the bare line feed after the
header is ignored, so the header record extends through `London`. -/
theorem C9_counterexample : (run args9 input9).out = [] := by decide

/-- C9 amended: with the header line terminated by carriage return plus line
feed (`name,city\r\nAda,London\r\nBob,Paris\r\n`), the same arguments produce
exactly one output line, `London`. -/
theorem C9_example_fixed : (run args9 input9fixed).out = [londonStr] := by decide

/-! ### State growth (claim C3) -/

/-- Data bytes made of `n` copies of the record `b\r`. -/
def c3data : Nat → List Nat
  | 0 => []
  | n + 1 => 98 :: 13 :: c3data n

/-- Input with header `a\r` followed by `n` copies of the record `b\r`: one
column, every field one byte long. -/
def c3input (n : Nat) : List Nat := 97 :: 13 :: c3data n

/-- The state between data records of a `filterAZ` run whose accumulated
output list is `L`: one resolved never-matching filter, data phase, field
index zero, empty pending buffer, nothing printed. -/
def midState (L : List Str) : ReaderState :=
  ⟨[], [⟨0, [122], false⟩], false, 0, [], L, [], false⟩

theorem c3_record_step (L : List Str) :
    step filterAZ (step filterAZ (midState L) 98) 13 = midState (L ++ [[98]]) := rfl

theorem c3_steps (n : Nat) :
    ∀ L : List Str,
      processBytes filterAZ (midState L) (c3data n) = midState (L ++ List.replicate n [98]) := by
  induction n with
  | zero => intro L; simp [c3data, processBytes]
  | succ k ih =>
    intro L
    show processBytes filterAZ (midState L) (98 :: 13 :: c3data k) = _
    rw [processBytes, List.foldl_cons, List.foldl_cons]
    rw [show List.foldl (step filterAZ) (step filterAZ (step filterAZ (midState L) 98) 13)
        (c3data k) = processBytes filterAZ (midState (L ++ [[98]])) (c3data k) from by
      rw [c3_record_step]; rfl]
    rw [ih (L ++ [[98]])]
    simp [List.replicate_succ]

theorem flush_midState (L : List Str) :
    flush filterAZ (midState L) = midState (L ++ [[]]) := rfl

/-- C3 (code bug): the size of the parse state is not bounded independently of
the number of records processed.  With `-where a -eq z` and no `-select`, the
header `a\r` followed by `n` one-byte records `b\r` (one column, longest field
one byte) leaves `n + 1` accumulated entries in the pending output list while
printing nothing: each rejected record skips the clearing of `to_print`, so
the list grows linearly with the record count. -/
theorem C3_state_growth (n : Nat) :
    (run filterAZ (c3input n)).to_print.length = n + 1 ∧
    (run filterAZ (c3input n)).out = [] := by
  have h0 : run filterAZ (c3input n) = flush filterAZ (midState (List.replicate n [98])) := by
    show flush filterAZ (processBytes filterAZ initState (97 :: 13 :: c3data n)) = _
    rw [processBytes, List.foldl_cons, List.foldl_cons]
    rw [show List.foldl (step filterAZ) (step filterAZ (step filterAZ initState 97) 13)
        (c3data n) = processBytes filterAZ (midState []) (c3data n) from rfl]
    rw [c3_steps n []]
    simp
  rw [h0, flush_midState]
  constructor
  · simp [midState]
  · rfl

/-! ### Unresolved filters (claim C4) -/

/-- C4 counterexample: with the single predicate `-where m -eq x` whose column
`m` is absent from the header `a`, the input `a\r1` still produces the output
line `1` — one line, not zero. -/
theorem C4_counterexample : (run unresolvedFilterArgs [97, 13, 49]).out = [[49]] := by decide

/-- C4 amended: a `-where` predicate whose column is absent from the header is
silently dropped during header resolution — a header field value matching no
requested filter column adds no resolved entry, so the run carries no trace of
the unresolved predicate and acceptance is decided by the remaining resolved
predicates alone; concretely the run with only the unresolved predicate is
state-for-state identical to the run with no filters at all. -/
theorem C4_unresolved_filter_dropped :
    (∀ (args : ReaderArgs) (s : ReaderState),
        s.panicked = false → s.in_header = true → utf8Valid s.current_value = true →
        (∀ f ∈ args.filters, f.column ≠ s.current_value) →
        (handle_value_end args s).filters = s.filters) ∧
    run unresolvedFilterArgs [97, 13, 49] = run noArgs [97, 13, 49] := by
  constructor
  · intro args s hp hh hv hf
    have hfind : args.filters.find? (fun f => f.column == s.current_value) = none := by
      rw [List.find?_eq_none]
      intro f hfmem
      simpa using hf f hfmem
    simp [handle_value_end, hp, hh, hv, hfind]
  · decide

/-- C4 witness: finalizing the header field `a` under the unresolved predicate
`-where m -eq x` leaves the resolved filter list empty. -/
theorem C4_witness :
    (handle_value_end unresolvedFilterArgs ⟨[], [], true, 0, [97], [], [], false⟩).filters = [] :=
  C4_unresolved_filter_dropped.1 unresolvedFilterArgs ⟨[], [], true, 0, [97], [], [], false⟩
    rfl rfl (by decide) (by decide)

/-! ### Header-only input (claim C5) -/

theorem hve_header_pres (args : ReaderArgs) {s : ReaderState} (hh : s.in_header = true) :
    (handle_value_end args s).in_header = true ∧
    (handle_value_end args s).to_print = s.to_print ∧
    (handle_value_end args s).out = s.out := by
  by_cases hp : s.panicked = true
  · simp [hve_panicked args hp, hh]
  · simp only [Bool.not_eq_true] at hp
    by_cases hv : utf8Valid s.current_value = true
    · simp [handle_value_end, hp, hh, hv]
    · simp only [Bool.not_eq_true] at hv
      simp [handle_value_end, hp, hh, hv]

theorem hle_out_pres (args : ReaderArgs) {s : ReaderState} (ht : s.to_print = []) :
    (handle_line_end args s).out = s.out := by
  by_cases hp : s.panicked = true
  · simp [hle_panicked args hp]
  · simp [handle_line_end, hp, ht]

theorem step_header_pres (args : ReaderArgs) {s : ReaderState} (b : Nat)
    (hb : b ≠ 13) (hh : s.in_header = true) :
    (step args s b).in_header = true ∧
    (step args s b).to_print = s.to_print ∧
    (step args s b).out = s.out := by
  by_cases hp : s.panicked = true
  · simp [step, hp, hh]
  · simp only [Bool.not_eq_true] at hp
    by_cases h10 : b = 10
    · simp [step, hp, h10, hh]
    · by_cases h44 : b = 44
      · have e : step args s b = handle_value_end args s := by
          simp [step, hp, h10, h44, hb]
        rw [e]
        exact hve_header_pres args hh
      · simp [step, hp, h10, hb, h44, hh]

theorem processBytes_header_pres (args : ReaderArgs) :
    ∀ (bs : List Nat), 13 ∉ bs → ∀ (s : ReaderState),
      s.in_header = true → s.to_print = [] → s.out = [] →
      (processBytes args s bs).in_header = true ∧
      (processBytes args s bs).to_print = [] ∧
      (processBytes args s bs).out = [] := by
  intro bs
  induction bs with
  | nil => intro _ s hh ht ho; exact ⟨hh, ht, ho⟩
  | cons b rest ih =>
    intro hmem s hh ht ho
    obtain ⟨hb, hrest⟩ := List.ne_and_not_mem_of_not_mem_cons hmem
    have e : processBytes args s (b :: rest) = processBytes args (step args s b) rest := rfl
    rw [e]
    obtain ⟨h1, h2, h3⟩ := step_header_pres args b (fun c => hb c.symm) hh
    exact ih hrest (step args s b) h1 (h2.trans ht) (h3.trans ho)

/-- C5 counterexample: the header-only input `a,b\r` (header record with a
trailing record delimiter) with no `-select` and no `-where` arguments
produces one output line (an empty one), not zero: the end-of-stream flush
synthesizes an empty data record, its empty field is projected because no
columns were requested, and the vacuously accepted record is printed. -/
theorem C5_counterexample : (run noArgs [97, 44, 98, 13]).out = [[]] := by decide

/-- C5 corrected: a header-only input with no trailing record delimiter indeed
produces zero output lines for every argument combination — but not with a
trailing record delimiter: the end-of-stream flush then synthesizes an empty
data record which is evaluated like any other, and with no `-select` and no
`-where` (the empty combination) the header `a,b\r` prints one empty output
line. -/
theorem C5_header_only :
    (∀ (args : ReaderArgs) (hdr : List Nat), 13 ∉ hdr → (run args hdr).out = []) ∧
    (run noArgs [97, 44, 98, 13]).out = [[]] := by
  constructor
  · intro args hdr hmem
    obtain ⟨hh, ht, ho⟩ := processBytes_header_pres args hdr hmem initState rfl rfl rfl
    show (flush args (processBytes args initState hdr)).out = []
    rw [flush]
    obtain ⟨hh2, ht2, ho2⟩ := hve_header_pres args hh
    rw [hle_out_pres args (ht2.trans ht)]
    exact ho2.trans ho
  · decide

/-- C5 witness: the header-only input `hi` (no record delimiter anywhere)
with no arguments produces no output. -/
theorem C5_header_only_witness : (run noArgs [104, 105]).out = [] :=
  C5_header_only.1 noArgs [104, 105] (by decide)

/-! ### UTF-8 validation points (claim C7) -/

/-- C7 counterexample: with `-select a`, the input `a,b\r1,<0xFF>` contains a
data field whose sole byte 255 is not valid UTF-8, yet the field sits at an
index that is neither projected nor filtered, so it is never decoded: the
program does not terminate with an error but completes and prints `1`. -/
theorem C7_counterexample :
    (run selectAArgs [97, 44, 98, 13, 49, 44, 255]).panicked = false ∧
    (run selectAArgs [97, 44, 98, 13, 49, 44, 255]).out = [[49]] := by decide

/-- C7 amended: finalizing a field with invalid UTF-8 bytes terminates the
program whenever the field is decoded, and only then: always in the header
phase, and in the data phase exactly when the field index is projected (it
was resolved from the header, or no `-select` columns were given) or a
resolved filter sits at that index; a data field that is neither projected nor
filtered is silently skipped. -/
theorem C7_validation_when_used (args : ReaderArgs) (s : ReaderState)
    (hp : s.panicked = false) (hv : utf8Valid s.current_value = false) :
    (s.in_header = true → (handle_value_end args s).panicked = true) ∧
    (s.in_header = false →
      (handle_value_end args s).panicked =
        (s.column_indexes.contains s.column_index || args.columns.isEmpty ||
          s.filters.any (fun f => f.column_index == s.column_index))) := by
  constructor
  · intro hh
    simp [handle_value_end, hp, hh, hv]
  · intro hh
    have key : (handle_value_end args s).panicked = (isProjected args s || isFiltered s) := by
      rw [handle_value_end, if_neg (by simp [hp]), if_neg (by simp [hh]), hv]
      simp only [Bool.not_false, Bool.and_true]
      cases hP : isProjected args s
      · cases hF : isFiltered s
        · simp [hP, hF, hp]
        · simp [hP, hF]
      · simp [hP]
    rw [key]
    rfl

/-- C7 witness: a header field holding the invalid byte 255 terminates the
program at the point it is finalized. -/
theorem C7_validation_witness :
    (handle_value_end noArgs ⟨[], [], true, 0, [255], [], [], false⟩).panicked = true :=
  (C7_validation_when_used noArgs ⟨[], [], true, 0, [255], [], [], false⟩ rfl (by decide)).1 rfl

/-! ### Duplicate header names (claim C8) -/

/-- C8 counterexample: on the duplicate header `a,a\r`, `-select a` records
both indexes 0 and 1 in the projection set, and `-where a -eq 1` creates a
resolved filter entry at both indexes — the later occurrence is not
skipped. -/
theorem C8_counterexample :
    (processBytes selectAArgs initState [97, 44, 97, 13]).column_indexes = [0, 1] ∧
    (processBytes filterA1 initState [97, 44, 97, 13]).filters =
      [⟨0, [49], false⟩, ⟨1, [49], false⟩] := by decide

/-- C8 amended: every header occurrence of a name binds, not only the first:
each header field whose value is in the `-select` list appends its own index
to the projection set, and each header field matching some `-where` column
appends a resolved filter entry at its own index (the first matching `-where`
predicate supplying the expected value).  Consequently, with the duplicate
header `a,a`, `-select a` on record `1,2` prints `1,2` (both occurrences
projected), and `-where a -eq 1` rejects record `1,2` because the duplicated
predicate must match at every occurrence. -/
theorem C8_duplicates_all_bind :
    (∀ (args : ReaderArgs) (s : ReaderState),
        s.panicked = false → s.in_header = true → utf8Valid s.current_value = true →
        (handle_value_end args s).column_indexes =
          s.column_indexes ++
            (if args.columns.contains s.current_value then [s.column_index] else []) ∧
        (handle_value_end args s).filters =
          s.filters ++
            (match args.filters.find? (fun f => f.column == s.current_value) with
              | some f => [⟨s.column_index, f.value, false⟩]
              | none => [])) ∧
    (run selectAArgs [97, 44, 97, 13, 49, 44, 50]).out = [[49, 44, 50]] ∧
    (run filterA1 [97, 44, 97, 13, 49, 44, 50]).out = [] := by
  refine ⟨fun args s hp hh hv => ?_, by decide, by decide⟩
  constructor
  · simp [handle_value_end, hp, hh, hv]
  · simp [handle_value_end, hp, hh, hv]

/-- C8 witness: finalizing a second header field `a` at index 1 under
`-select a`, with index 0 already recorded, appends index 1 as well. -/
theorem C8_duplicates_witness :
    (handle_value_end selectAArgs ⟨[0], [], true, 1, [97], [], [], false⟩).column_indexes
      = [0, 1] := by
  have h := (C8_duplicates_all_bind.1 selectAArgs ⟨[0], [], true, 1, [97], [], [], false⟩
    rfl rfl (by decide)).1
  rw [h]
  decide

/-! ### Argument parsing (claim C10) -/

/-- Greedy consumption of column names after `-select`: accept tokens until
one starts with a dash byte (which is refunded) or the tokens are exhausted
(the inner `while let` loop of `parse_args`). -/
def parseSelect (r : ReaderArgs) : List Str → ReaderArgs × List Str
  | [] => (r, [])
  | t :: rest =>
    if t.head? = some 45 then (r, t :: rest)
    else parseSelect { r with columns := r.columns ++ [t] } rest

theorem parseSelect_length (r : ReaderArgs) (ts : List Str) :
    (parseSelect r ts).2.length ≤ ts.length := by
  induction ts generalizing r with
  | nil => simp [parseSelect]
  | cons t rest ih =>
    rw [parseSelect]
    by_cases h : t.head? = some 45
    · simp [h]
    · rw [if_neg h]
      exact (ih _).trans (Nat.le_succ _)

/-- The fatal argument errors of `parse_args`, one constructor per distinct
error message in the source. -/
inductive ArgError where
  | noExecPath
  | noFilenameAfterIn
  | noColumnAfterWhere
  | noEqAfterWhere
  | expectedEqGot (t : Str)
  | noValueAfterEq
  | unknownArgument (t : Str)
deriving DecidableEq, Repr

/-- UTF-8 bytes of the token `-in`. -/
def inTok : Str := [45, 105, 110]

/-- UTF-8 bytes of the token `-select`. -/
def selectTok : Str := [45, 115, 101, 108, 101, 99, 116]

/-- UTF-8 bytes of the token `-where`. -/
def whereTok : Str := [45, 119, 104, 101, 114, 101]

/-- UTF-8 bytes of the token `-eq`. -/
def eqTok : Str := [45, 101, 113]

/-- The argument loop of `parse_args` over the tokens after the executable
path; the accept/refund cursor of the source is modelled by recursion on the
remaining token list. -/
def parseLoop (r : ReaderArgs) : List Str → Except ArgError ReaderArgs
  | [] => .ok r
  | t :: rest =>
    if t = inTok then
      match rest with
      | [] => .error .noFilenameAfterIn
      | fname :: rest1 => parseLoop { r with inputPath := some fname } rest1
    else if t = selectTok then
      parseLoop (parseSelect r rest).1 (parseSelect r rest).2
    else if t = whereTok then
      match rest with
      | [] => .error .noColumnAfterWhere
      | col :: rest1 =>
        match rest1 with
        | [] => .error .noEqAfterWhere
        | e :: rest2 =>
          if e ≠ eqTok then .error (.expectedEqGot e)
          else
            match rest2 with
            | [] => .error .noValueAfterEq
            | v :: rest3 => parseLoop { r with filters := r.filters ++ [⟨col, v⟩] } rest3
    else .error (.unknownArgument t)
termination_by ts => ts.length
decreasing_by
  · simp only [List.length_cons]
    omega
  · simp only [List.length_cons]
    exact Nat.lt_succ_of_le (parseSelect_length r rest)
  · simp only [List.length_cons]
    omega

/-- Full argument parsing: the first token (the executable path) is consumed
by the initial `expect`, then the loop runs with stdin input, no columns and
no filters. -/
def parse_args (tokens : List Str) : Except ArgError ReaderArgs :=
  match tokens with
  | [] => .error .noExecPath
  | _ :: rest => parseLoop ⟨none, [], []⟩ rest

/-- C10: a `-select` token followed by end of arguments or by a token starting
with a dash consumes nothing and is not an error: parsing continues exactly as
if the `-select` token had been omitted, with unchanged columns, whatever
arguments were already accumulated and whatever tokens follow. -/
theorem C10_select_without_names (r : ReaderArgs) (rest : List Str)
    (h : rest = [] ∨ ∃ t rest2, rest = t :: rest2 ∧ t.head? = some 45) :
    parseLoop r (selectTok :: rest) = parseLoop r rest := by
  rcases h with h | ⟨t, rest2, hrest, hd⟩
  · subst h
    conv_lhs => rw [parseLoop.eq_def]
    simp only [if_true]
    rfl
  · subst hrest
    conv_lhs => rw [parseLoop.eq_def]
    simp only [if_true]
    have e : parseSelect r (t :: rest2) = (r, t :: rest2) := by
      rw [parseSelect, if_pos hd]
    rw [e, if_neg (by decide : ¬ (selectTok = inTok))]

/-- C10 witness: `-select` immediately followed by `-where name -eq x` parses
exactly like the argument list without the `-select` token. -/
theorem C10_select_without_names_witness :
    parseLoop noArgs (selectTok :: [whereTok, [97], eqTok, [120]]) =
      parseLoop noArgs [whereTok, [97], eqTok, [120]] :=
  C10_select_without_names noArgs [whereTok, [97], eqTok, [120]]
    (Or.inr ⟨whereTok, [[97], eqTok, [120]], rfl, rfl⟩)

end Cq
